import Mathlib

/-!
Verification of the `google_maps_api` places-analysis scripts.

The repository's analysis code (`places_analysis/only_review.ipynb`) works on
JSON documents loaded by `json.load`.  We embed those values as an inductive
`Json` type (Python `None` / `bool` / numbers / `str` / `list` / `dict`),
Python exceptions as an explicit `PyError`, and translate the two notebook
cells — the review-extraction cell and the investment-score cell — into
executable Lean functions over this type.

Components the specification describes but whose code is not part of the
sources (the fetcher in `places_api.py`, the persister and input validation
in `utils.py`, and the third-party TextBlob sentiment analyzer) are modelled
from the specification; each such definition says so in its doc comment.
-/

/-- A JSON value as produced by Python's `json.load`: `None`, booleans,
numbers (modelled exactly as rationals), strings, lists, and dicts
(association lists of string keys). -/
inductive Json where
  | null : Json
  | bool : Bool → Json
  | num : ℚ → Json
  | str : String → Json
  | arr : List Json → Json
  | obj : List (String × Json) → Json

/-- Python exceptions that the embedded code can raise. -/
inductive PyError where
  | attributeError : PyError
  | typeError : PyError
deriving DecidableEq, Repr

/-- First-match lookup in a dict's association list (Python dict keys are
unique, so first match is the dict lookup). -/
def Json.lookup : List (String × Json) → String → Option Json
  | [], _ => none
  | (k, v) :: rest, key => if k = key then some v else Json.lookup rest key

/-- Python `value.get(key)` on a dict: `None` when the key is absent;
`AttributeError` when `value` is not a dict. -/
def Json.get (j : Json) (key : String) : Except PyError Json :=
  match j with
  | .obj fields => .ok ((Json.lookup fields key).getD .null)
  | _ => .error .attributeError

/-- Python `value.get(key, default)` on a dict. -/
def Json.getD (j : Json) (key : String) (default : Json) : Except PyError Json :=
  match j with
  | .obj fields => .ok ((Json.lookup fields key).getD default)
  | _ => .error .attributeError

/-- Python `v is None`. -/
def Json.isNull : Json → Bool
  | .null => true
  | _ => false

/-- Python truthiness of a JSON value (`bool(v)`). -/
def Json.truthy : Json → Bool
  | .null => false
  | .bool b => b
  | .num q => if q = 0 then false else true
  | .str s => if s = "" then false else true
  | .arr xs => !xs.isEmpty
  | .obj fs => !fs.isEmpty

/-- Python iteration `for x in v`: lists yield their elements, strings yield
their one-character substrings, dicts yield their keys; other values raise
`TypeError`. -/
def Json.asList : Json → Except PyError (List Json)
  | .arr xs => .ok xs
  | .str s => .ok (s.toList.map (fun c => Json.str c.toString))
  | .obj fs => .ok (fs.map (fun kv => Json.str kv.1))
  | _ => .error .typeError

/-- Python `len(v)` for sized JSON values; `TypeError` otherwise. -/
def Json.pyLen : Json → Except PyError ℕ
  | .arr xs => .ok xs.length
  | .str s => .ok s.length
  | .obj fs => .ok fs.length
  | _ => .error .typeError

/-- Python `str.strip()`: remove leading and trailing whitespace. -/
def pyStrip (s : String) : String :=
  String.mk (((s.data.dropWhile Char.isWhitespace).reverse.dropWhile
    Char.isWhitespace).reverse)

/-- Python `text.strip()`: defined on strings only (`AttributeError`
otherwise), removing surrounding whitespace. -/
def Json.strip : Json → Except PyError Json
  | .str s => .ok (.str (pyStrip s))
  | _ => .error .attributeError

/-- Python numeric coercion for `+`: numbers are themselves, booleans count
as `0`/`1`, anything else raises `TypeError`. -/
def Json.toNum : Json → Except PyError ℚ
  | .num q => .ok q
  | .bool b => .ok (if b then 1 else 0)
  | _ => .error .typeError

/-! ## Review-extraction cell (`dce54e1d`)

```python
for place in data.get("places", []):
    name = place.get("name")
    reviews_raw = place.get("reviews", [])
    reviews = []
    for review in reviews_raw:
        author = review.get("author_name")
        rating = review.get("rating")
        text = review.get("text")
        if author and rating is not None and text:
            reviews.append({"author_name": author, "rating": rating,
                            "text": text.strip()})
    if name and reviews:
        output.append({"name": name, "reviews": reviews})
```
-/

/-- Body of the inner review loop: extract `author_name`, `rating`, `text`
from one raw review and keep it (with stripped text) when the author and
text are truthy and the rating is not `None`. -/
def extractReview (review : Json) : Except PyError (Option Json) := do
  let author ← review.get "author_name"
  let rating ← review.get "rating"
  let text ← review.get "text"
  if author.truthy && !rating.isNull && text.truthy then
    let stripped ← text.strip
    pure (some (.obj [("author_name", author), ("rating", rating), ("text", stripped)]))
  else
    pure none

/-- The inner `for review in reviews_raw` loop, accumulating kept reviews in
order. -/
def collectReviews : List Json → Except PyError (List Json)
  | [] => pure []
  | review :: rest => do
    let kept ← extractReview review
    let others ← collectReviews rest
    match kept with
    | some j => pure (j :: others)
    | none => pure others

/-- Body of the outer place loop: a place contributes an output entry exactly
when its name is truthy and at least one of its raw reviews survived the
inner loop. -/
def extractPlace (place : Json) : Except PyError (Option Json) := do
  let name ← place.get "name"
  let reviewsRaw ← place.getD "reviews" (.arr [])
  let reviewList ← reviewsRaw.asList
  let reviews ← collectReviews reviewList
  if name.truthy && !reviews.isEmpty then
    pure (some (.obj [("name", name), ("reviews", .arr reviews)]))
  else
    pure none

/-- The outer `for place in ...` loop of the extraction cell. -/
def collectPlaces : List Json → Except PyError (List Json)
  | [] => pure []
  | place :: rest => do
    let kept ← extractPlace place
    let others ← collectPlaces rest
    match kept with
    | some j => pure (j :: others)
    | none => pure others

/-- The whole review-extraction cell: `data.get("places", [])` followed by
the place loop, producing the `business_reviews.json` payload. -/
def extractBusinessReviews (data : Json) : Except PyError (List Json) := do
  let places ← data.getD "places" (.arr [])
  let placeList ← places.asList
  collectPlaces placeList

/-! ## Investment-score cell (`48b79dae`) -/

/-- `analyze_review_sentiment(text)` returns `TextBlob(text).sentiment.polarity`.
TextBlob itself is a third-party library; the embedding takes the polarity
function on strings as a parameter (`TextBlob` rejects non-string input with
`TypeError`). -/
def analyze_review_sentiment (sentiment : String → ℚ) (text : Json) :
    Except PyError ℚ :=
  match text with
  | .str s => .ok (sentiment s)
  | _ => .error .typeError

/-- Python 3 `round(x)` to an integer: round-half-to-even. -/
def pyRound (q : ℚ) : ℤ :=
  let f : ℤ := q.floor
  let frac : ℚ := q - (f : ℚ)
  if frac < 1 / 2 then f
  else if 1 / 2 < frac then f + 1
  else if f % 2 = 0 then f else f + 1

/-- Python `round(x, 2)`: round to two decimal places (half to even). -/
def round2 (q : ℚ) : ℚ := ((pyRound (q * 100) : ℚ)) / 100

/-- The `for review in reviews` loop of `compute_investment_score`,
accumulating `total_rating` and `total_sentiment` exactly in loop order:
per review, `rating = review.get("rating", 0)`, `text = review.get("text", "")`,
sentiment of the text, then both running sums are updated. -/
def scoreLoop (sentiment : String → ℚ) (totalRating totalSentiment : ℚ) :
    List Json → Except PyError (ℚ × ℚ)
  | [] => pure (totalRating, totalSentiment)
  | review :: rest => do
    let rating ← review.getD "rating" (.num 0)
    let text ← review.getD "text" (.str "")
    let s ← analyze_review_sentiment sentiment text
    let r ← rating.toNum
    scoreLoop sentiment (totalRating + r) (totalSentiment + s) rest

/-- `compute_investment_score(business)`: `0` when `business.get("reviews", [])`
is falsy, otherwise `round((avg_rating * 0.5) + (avg_sentiment * 2) +
(count_reviews * 0.05), 2)`. -/
def compute_investment_score (sentiment : String → ℚ) (business : Json) :
    Except PyError ℚ := do
  let reviews ← business.getD "reviews" (.arr [])
  if !reviews.truthy then
    pure 0
  else do
    let rs ← reviews.asList
    let sums ← scoreLoop sentiment 0 0 rs
    let avg_rating := sums.1 / (rs.length : ℚ)
    let avg_sentiment := sums.2 / (rs.length : ℚ)
    let count_reviews : ℚ := (rs.length : ℚ)
    pure (round2 (avg_rating * 0.5 + avg_sentiment * 2 + count_reviews * 0.05))

/-- The report loop of the score cell: for every place, record its name,
investment score, `len(reviews)` and raw rating. -/
def reportLoop (sentiment : String → ℚ) : List Json → Except PyError (List Json)
  | [] => pure []
  | place :: rest => do
    let name ← place.get "name"
    let reviews ← place.getD "reviews" (.arr [])
    let score ← compute_investment_score sentiment place
    let count ← reviews.pyLen
    let rating ← place.get "rating"
    let entry : Json := .obj [("name", name), ("investment_score", .num score),
      ("reviews_count", .num (count : ℚ)), ("rating", rating)]
    let others ← reportLoop sentiment rest
    pure (entry :: others)

/-- The whole investment-score cell after loading: `data.get("places", [])`
followed by the report loop. -/
def investmentReport (sentiment : String → ℚ) (data : Json) :
    Except PyError (List Json) := do
  let places ← data.getD "places" (.arr [])
  let placeList ← places.asList
  reportLoop sentiment placeList

/-! ## Spec-modelled components

The fetcher (`places_api.py`), the persister and input validation
(`utils.py`), and the TextBlob sentiment internals are not among the
sources; the definitions below model them from the specification. -/

/-- The specification's error kinds: `InvalidInput`, `AuthError`,
`QuotaExceeded`, `NetworkError`, `MalformedResponse`, `FileIOError`. -/
inductive ErrorKind where
  | invalidInput : ErrorKind
  | authError : ErrorKind
  | quotaExceeded : ErrorKind
  | networkError : ErrorKind
  | malformedResponse : ErrorKind
  | fileIOError : ErrorKind
deriving DecidableEq, Repr

/-- Clamp a rational into `[-1, 1]`. -/
def clampPolarity (q : ℚ) : ℚ := max (-1) (min 1 q)

/-- Modelled from the spec: TextBlob's pattern-based sentiment (third-party
library, not part of the sources) assesses the words of the text against a
polarity lexicon whose entries lie in `[-1, 1]` (enforced here by clamping),
collecting one polarity per recognised word. -/
def assessedPolarities (lexicon : List (String × ℚ)) (text : String) : List ℚ :=
  (text.splitOn " ").filterMap fun w =>
    (lexicon.lookup w).map clampPolarity

/-- Modelled from the spec: `TextBlob(text).sentiment.polarity` is the
average of the assessed word polarities, and `0` when no word of the text is
in the lexicon. -/
def textblobPolarity (lexicon : List (String × ℚ)) (text : String) : ℚ :=
  let ps := assessedPolarities lexicon text
  if ps.isEmpty then 0 else ps.sum / (ps.length : ℚ)

/-- Modelled from the spec: the radius check of `utils.validate_user_input`
(`utils.py` is not among the sources): a radius is accepted exactly when it
lies in `[1, 50000]` metres; otherwise the run fails with `InvalidInput`. -/
def validate_radius (r : ℤ) : Except ErrorKind ℤ :=
  if 1 ≤ r ∧ r ≤ 50000 then .ok r else .error .invalidInput

/-- A file store mapping paths to the JSON documents they hold (file I/O and
JSON (de)serialisation abstracted to the parsed document level). -/
def FileStore : Type := String → Option Json

/-- Modelled from the spec: `utils.save_results_to_json(records, path)`
(`utils.py` is not among the sources) writes the result envelope
`{"metadata": {search timestamp, total count, schema version}, "places": [...]}`
to the path, superseding any previous file there. -/
def save_results_to_json (records : List Json) (timestamp : String)
    (path : String) (fs : FileStore) : FileStore :=
  fun p =>
    if p = path then
      some (.obj [("metadata", .obj [("search_timestamp", .str timestamp),
                    ("total_count", .num (records.length : ℚ)),
                    ("schema_version", .num 1)]),
                  ("places", .arr records)])
    else fs p

/-- Modelled from the spec: `utils.load_results_from_json(path)` (`utils.py`
is not among the sources) reads the envelope back, failing with a distinct
error kind when the file is missing (`FileIOError`) or its shape is not the
expected envelope (`MalformedResponse`), and returns the stored records. -/
def load_results_from_json (path : String) (fs : FileStore) :
    Except ErrorKind (List Json) :=
  match fs path with
  | none => .error .fileIOError
  | some doc =>
    match doc with
    | .obj fields =>
      match Json.lookup fields "metadata", Json.lookup fields "places" with
      | some _, some (.arr records) => .ok records
      | _, _ => .error .malformedResponse
    | _ => .error .malformedResponse

/-- Modelled from the spec: the pagination loop of
`places_api.search_nearby_places` (`places_api.py` is not among the
sources).  `fetch tok` is one provider request with an optional page token,
returning that page's results and the optional next-page token; the loop
runs until the page cap is exhausted or a response carries no next token.
It returns the accumulated results together with the trace of tokens
actually requested, in order. -/
def search_pages (fetch : Option String → List Json × Option String) :
    ℕ → Option String → List Json × List (Option String)
  | 0, _ => ([], [])
  | n + 1, tok =>
    let page := fetch tok
    match page.2 with
    | none => (page.1, [tok])
    | some t =>
      let rest := search_pages fetch n (some t)
      (page.1 ++ rest.1, tok :: rest.2)

/-- A two-page provider used to exercise `search_pages` on concrete input:
the first request yields a next-page token, the second does not. -/
def demoFetch : Option String → List Json × Option String :=
  fun tok =>
    match tok with
    | none => ([.str "page1"], some "next")
    | some _ => ([.str "page2"], none)

/-! ## Reformulations used to state the claims

The definitions below restate pieces of the notebook's behaviour as plain
(total) functions; the theorems relate the embedded cells to them. -/

/-- Whether a value is a Python dict. -/
def Json.isObj : Json → Bool
  | .obj _ => true
  | _ => false

/-- Clean reformulation of the inner review filter: keep a raw review
exactly when its author is truthy, its rating is not `None` and its text is
a truthy string, stripping the text's whitespace. -/
def keepReview (review : Json) : Option Json :=
  match review with
  | .obj fs =>
    let author := (Json.lookup fs "author_name").getD .null
    let rating := (Json.lookup fs "rating").getD .null
    match (Json.lookup fs "text").getD .null with
    | .str s =>
      if author.truthy && !rating.isNull && Json.truthy (.str s) then
        some (.obj [("author_name", author), ("rating", rating),
                    ("text", .str (pyStrip s))])
      else none
    | _ => none
  | _ => none

/-- Clean reformulation of the outer place filter: emit a place exactly when
its name is truthy and at least one raw review survives `keepReview`. -/
def keepPlace (place : Json) : Option Json :=
  match place with
  | .obj fs =>
    let name := (Json.lookup fs "name").getD .null
    match (Json.lookup fs "reviews").getD (.arr []) with
    | .arr rs =>
      let kept := rs.filterMap keepReview
      if name.truthy && !kept.isEmpty then
        some (.obj [("name", name), ("reviews", .arr kept)])
      else none
    | _ => none
  | _ => none

/-- A raw review the extraction cell processes without raising: a dict whose
`text` field (when present) is a string or falsy. -/
def wellShapedReview (review : Json) : Bool :=
  match review with
  | .obj fs =>
    match (Json.lookup fs "text").getD .null with
    | .str _ => true
    | t => !t.truthy
  | _ => false

/-- A raw place the extraction cell processes without raising: a dict whose
`reviews` field (defaulting to the empty list) is a list of well-shaped
reviews. -/
def wellShapedPlace (place : Json) : Bool :=
  match place with
  | .obj fs =>
    match (Json.lookup fs "reviews").getD (.arr []) with
    | .arr rs => rs.all wellShapedReview
    | _ => false
  | _ => false

/-- A loaded dataset the extraction cell processes without raising: a dict
whose `places` field (defaulting to the empty list) is a list of well-shaped
places. -/
def wellShapedData (data : Json) : Bool :=
  match data with
  | .obj fs =>
    match (Json.lookup fs "places").getD (.arr []) with
    | .arr ps => ps.all wellShapedPlace
    | _ => false
  | _ => false

/-- The raw place list of a loaded dataset (`data.get("places", [])`). -/
def placesOf (data : Json) : List Json :=
  match data with
  | .obj fs =>
    match (Json.lookup fs "places").getD (.arr []) with
    | .arr ps => ps
    | _ => []
  | _ => []

/-- A `rating` field Python can add to a running total: absent, a number, or
a bool (Python treats bools as `0`/`1`). -/
def ratingFieldOk : Option Json → Bool
  | none => true
  | some (.num _) => true
  | some (.bool _) => true
  | some _ => false

/-- A `text` field TextBlob accepts: absent (defaulted to `""`) or a string. -/
def textFieldOk : Option Json → Bool
  | none => true
  | some (.str _) => true
  | some _ => false

/-- A review `compute_investment_score` processes without raising. -/
def reviewNumOk : Json → Bool
  | .obj fs =>
    ratingFieldOk (Json.lookup fs "rating") && textFieldOk (Json.lookup fs "text")
  | _ => false

/-- The rating `compute_investment_score` adds for one review:
`review.get("rating", 0)`, with a missing rating contributing `0`. -/
def ratingValue (review : Json) : ℚ :=
  match review with
  | .obj fs =>
    match Json.lookup fs "rating" with
    | some (.num q) => q
    | some (.bool b) => if b then 1 else 0
    | _ => 0
  | _ => 0

/-- The text `compute_investment_score` scores for one review:
`review.get("text", "")`, with a missing text defaulting to `""`. -/
def textValue (review : Json) : String :=
  match review with
  | .obj fs =>
    match Json.lookup fs "text" with
    | some (.str s) => s
    | _ => ""
  | _ => ""

/-- `total_rating` over a review list. -/
def ratingSum (rs : List Json) : ℚ := (rs.map ratingValue).sum

/-- `total_sentiment` over a review list. -/
def sentimentSum (sentiment : String → ℚ) (rs : List Json) : ℚ :=
  (rs.map fun r => sentiment (textValue r)).sum

/-! ## Theorems -/

theorem exceptBind_ok {α β : Type} (x : α) (f : α → Except PyError β) :
    (Except.ok x >>= f) = f x := rfl

theorem exceptBind_error {α β : Type} (e : PyError) (f : α → Except PyError β) :
    ((Except.error e : Except PyError α) >>= f) = .error e := rfl

theorem exceptPure_ok {α : Type} (x : α) :
    (pure x : Except PyError α) = .ok x := rfl

/-- Claim C1: a place record whose review list is empty or absent gets the
documented default investment score `0`, and no error is raised. -/
theorem investment_score_no_reviews (sentiment : String → ℚ)
    (fields : List (String × Json))
    (h : Json.lookup fields "reviews" = none ∨
      Json.lookup fields "reviews" = some (.arr [])) :
    compute_investment_score sentiment (.obj fields) = .ok 0 := by
  rcases h with h | h <;>
    simp [compute_investment_score, Json.getD, h, exceptBind_ok, Json.truthy, exceptPure_ok]

/-- Witness for C1 at a concrete place record with no `reviews` key. -/
theorem investment_score_no_reviews_witness :
    compute_investment_score (fun _ => 0) (.obj [("name", .str "Cafe")]) = .ok 0 :=
  investment_score_no_reviews (fun _ => 0) [("name", .str "Cafe")] (Or.inl rfl)

/-- Counterexample to C3: the extraction cell, applied to a dataset whose
only place has a name but no `reviews` key, outputs the empty list — the
place is omitted, not emitted with an empty review list. -/
theorem missing_reviews_place_dropped :
    extractBusinessReviews
      (.obj [("places", .arr [.obj [("name", .str "Cafe")]])]) = .ok [] ∧
    extractPlace (.obj [("name", .str "Cafe")]) = .ok none := ⟨rfl, rfl⟩

/-- Claim C3 as amended: a raw place record with no `reviews` key is
processed without error — the review list defaults to empty — but the place
is then omitted from the output (its defaulted review list has no surviving
review), rather than emitted with an empty review list. -/
theorem missing_reviews_no_error (fs : List (String × Json))
    (h : Json.lookup fs "reviews" = none) :
    extractPlace (.obj fs) = .ok none := by
  simp [extractPlace, Json.get, Json.getD, h, exceptBind_ok, Json.asList,
    collectReviews, exceptPure_ok]

/-- Witness for the amended C3 at a concrete place record. -/
theorem missing_reviews_no_error_witness :
    extractPlace (.obj [("name", .str "Bar")]) = .ok none :=
  missing_reviews_no_error [("name", .str "Bar")] rfl

/-- Counterexample to C4: a top-level mapping lacking the `places` key is
not a hard failure — both notebook cells proceed and produce an empty
result. -/
theorem missing_places_not_hard_failure :
    extractBusinessReviews (.obj [("metadata", .null)]) = .ok [] ∧
    investmentReport (fun _ => 0) (.obj [("metadata", .null)]) = .ok [] :=
  ⟨rfl, rfl⟩

/-- Claim C4 as amended: a top-level value that is not a mapping fails hard
(`AttributeError` from `.get`), but a mapping lacking the `places` key is
treated as an empty dataset: both cells proceed and produce empty output
rather than failing. -/
theorem toplevel_malformed_behaviour (sentiment : String → ℚ) (data : Json) :
    (∀ fs, data = .obj fs → Json.lookup fs "places" = none →
      extractBusinessReviews data = .ok [] ∧
      investmentReport sentiment data = .ok []) ∧
    (data.isObj = false →
      extractBusinessReviews data = .error .attributeError ∧
      investmentReport sentiment data = .error .attributeError) := by
  constructor
  · rintro fs rfl h
    constructor <;>
      simp [extractBusinessReviews, investmentReport, Json.getD, h,
        exceptBind_ok, Json.asList, collectPlaces, reportLoop, exceptPure_ok]
  · intro h
    cases data <;>
      simp_all [Json.isObj, extractBusinessReviews, investmentReport,
        Json.getD, exceptBind_error]

/-- Witness for the amended C4: a mapping without `places` yields empty
output, a non-mapping raises. -/
theorem toplevel_malformed_behaviour_witness :
    (extractBusinessReviews (.obj [("status", .str "OK")]) = .ok [] ∧
      investmentReport (fun _ => 0) (.obj [("status", .str "OK")]) = .ok []) ∧
    (extractBusinessReviews (.arr []) = .error .attributeError ∧
      investmentReport (fun _ => 0) (.arr []) = .error .attributeError) :=
  ⟨(toplevel_malformed_behaviour (fun _ => 0) (.obj [("status", .str "OK")])).1
      [("status", .str "OK")] rfl rfl,
   (toplevel_malformed_behaviour (fun _ => 0) (.arr [])).2 rfl⟩

/-- Claim C6: loading the file produced by saving a record list returns the
original record list (round-trip of the persister). -/
theorem persister_round_trip (records : List Json) (timestamp path : String)
    (fs : FileStore) :
    load_results_from_json path (save_results_to_json records timestamp path fs) =
      .ok records := by
  simp [load_results_from_json, save_results_to_json, Json.lookup]

/-- Claim C7: the fetcher accepts a radius exactly when it lies in
`[1, 50000]`; any radius outside that range fails with `InvalidInput`. -/
theorem radius_validation (r : ℤ) :
    (validate_radius r = .ok r ↔ 1 ≤ r ∧ r ≤ 50000) ∧
    (¬(1 ≤ r ∧ r ≤ 50000) → validate_radius r = .error .invalidInput) := by
  refine ⟨⟨fun h => ?_, fun h => by simp [validate_radius, h]⟩,
    fun h => by simp [validate_radius, h]⟩
  by_contra hc
  simp [validate_radius, hc] at h

/-- Witness for C7: `2000` is accepted, `70000` is rejected with
`InvalidInput`. -/
theorem radius_validation_witness :
    validate_radius 2000 = .ok 2000 ∧
    validate_radius 70000 = .error .invalidInput :=
  ⟨(radius_validation 2000).1.mpr (by decide),
   (radius_validation 70000).2 (by decide)⟩

/-- Claim C5: the sentiment polarity of any review text is bounded within
`[-1, 1]`, and `analyze_review_sentiment` returns exactly that polarity on
string input. -/
theorem sentiment_polarity_bounded (lexicon : List (String × ℚ)) (text : String) :
    -1 ≤ textblobPolarity lexicon text ∧ textblobPolarity lexicon text ≤ 1 ∧
    analyze_review_sentiment (textblobPolarity lexicon) (.str text) =
      .ok (textblobPolarity lexicon text) := by
  have hmem : ∀ x ∈ assessedPolarities lexicon text, -1 ≤ x ∧ x ≤ 1 := by
    intro x hx
    simp only [assessedPolarities, List.mem_filterMap, Option.map_eq_some'] at hx
    obtain ⟨w, -, q, -, rfl⟩ := hx
    exact ⟨le_max_left _ _, max_le (by norm_num) (min_le_left _ _)⟩
  refine ⟨?_, ?_, rfl⟩ <;>
    rcases hps : assessedPolarities lexicon text with - | ⟨p, ps⟩ <;>
    rw [hps] at hmem
  · norm_num [textblobPolarity, hps]
  · have heq : textblobPolarity lexicon text =
        (p :: ps).sum / (((p :: ps).length : ℕ) : ℚ) := by
      simp [textblobPolarity, hps]
    have hlen : (0 : ℚ) < (((p :: ps).length : ℕ) : ℚ) := by
      exact_mod_cast Nat.succ_pos ps.length
    have hsum := List.card_nsmul_le_sum (p :: ps) (-1 : ℚ)
      (fun x hx => (hmem x hx).1)
    rw [nsmul_eq_mul] at hsum
    rw [heq, le_div_iff₀ hlen]
    nlinarith [hsum]
  · norm_num [textblobPolarity, hps]
  · have heq : textblobPolarity lexicon text =
        (p :: ps).sum / (((p :: ps).length : ℕ) : ℚ) := by
      simp [textblobPolarity, hps]
    have hlen : (0 : ℚ) < (((p :: ps).length : ℕ) : ℚ) := by
      exact_mod_cast Nat.succ_pos ps.length
    have hsum := List.sum_le_card_nsmul (p :: ps) (1 : ℚ)
      (fun x hx => (hmem x hx).2)
    rw [nsmul_eq_mul] at hsum
    rw [heq, div_le_iff₀ hlen]
    nlinarith [hsum]

/-- Claim C8: in every pagination run, at most the page cap of requests is
made, and a further page request is only ever issued after a response that
carried a next-page token: a response lacking the token ends the run. -/
theorem pagination_stops_without_token
    (fetch : Option String → List Json × Option String) (cap : ℕ)
    (tok : Option String) :
    (search_pages fetch cap tok).2.length ≤ cap ∧
    ∀ l1 (x : Option String) l2,
      (search_pages fetch cap tok).2 = l1 ++ x :: l2 → l2 ≠ [] →
      (fetch x).2.isSome = true := by
  induction cap generalizing tok with
  | zero =>
    refine ⟨by simp [search_pages], fun l1 x l2 h _ => ?_⟩
    simp [search_pages] at h
  | succ n ih =>
    cases hf : (fetch tok).2 with
    | none =>
      refine ⟨?_, fun l1 x l2 h hl2 => ?_⟩
      · simp [search_pages, hf]
      · simp only [search_pages, hf] at h
        cases l1 with
        | nil =>
          simp only [List.nil_append, List.cons.injEq] at h
          exact absurd h.2.symm hl2
        | cons a l1 => simp at h
    | some t =>
      obtain ⟨ihlen, ihget⟩ := ih (some t)
      refine ⟨?_, fun l1 x l2 h hl2 => ?_⟩
      · simp only [search_pages, hf]
        simpa using Nat.succ_le_succ ihlen
      · simp only [search_pages, hf] at h
        cases l1 with
        | nil =>
          simp only [List.nil_append, List.cons.injEq] at h
          rw [← h.1, hf]
          rfl
        | cons a l1 =>
          simp only [List.cons_append, List.cons.injEq] at h
          exact ihget l1 x l2 h.2 hl2

/-- Witness for C8: a two-page provider under a three-page cap makes at most
three requests, and the non-final request's response carried a token. -/
theorem pagination_stops_witness :
    (search_pages demoFetch 3 none).2.length ≤ 3 ∧
    (demoFetch none).2.isSome = true :=
  ⟨(pagination_stops_without_token demoFetch 3 none).1,
   (pagination_stops_without_token demoFetch 3 none).2 [] none [some "next"]
     rfl (List.cons_ne_nil _ _)⟩

theorem scoreLoop_cons (sentiment : String → ℚ) (a b : ℚ) (x : Json)
    (rest : List Json) (h : reviewNumOk x = true) :
    scoreLoop sentiment a b (x :: rest) =
      scoreLoop sentiment (a + ratingValue x) (b + sentiment (textValue x))
        rest := by
  cases x with
  | obj fs =>
    simp only [reviewNumOk, Bool.and_eq_true] at h
    rcases hrat : Json.lookup fs "rating" with - | jr <;> rw [hrat] at h <;>
      rcases htxt : Json.lookup fs "text" with - | jt <;> rw [htxt] at h <;>
      [skip; cases jt; cases jr; cases jr <;> cases jt] <;>
      simp_all [ratingFieldOk, textFieldOk, scoreLoop, Json.getD, hrat, htxt,
        exceptBind_ok, analyze_review_sentiment, Json.toNum, ratingValue,
        textValue]
  | null => simp [reviewNumOk] at h
  | bool b => simp [reviewNumOk] at h
  | num q => simp [reviewNumOk] at h
  | str s => simp [reviewNumOk] at h
  | arr xs => simp [reviewNumOk] at h

theorem scoreLoop_spec (sentiment : String → ℚ) (rs : List Json)
    (hok : ∀ r ∈ rs, reviewNumOk r = true) :
    ∀ a b : ℚ, scoreLoop sentiment a b rs =
      .ok (a + ratingSum rs, b + sentimentSum sentiment rs) := by
  induction rs with
  | nil => intro a b; simp [scoreLoop, ratingSum, sentimentSum, exceptPure_ok]
  | cons x rest ih =>
    intro a b
    rw [scoreLoop_cons sentiment a b x rest (hok x (by simp))]
    rw [ih (fun r hr => hok r (by simp [hr]))]
    simp [ratingSum, sentimentSum, add_assoc]

/-- Claim C2: for a place record with at least one review,
`compute_investment_score` equals the fixed linear formula
`(average rating) * 0.5 + (average sentiment polarity) * 2 +
(review count) * 0.05`, rounded to two decimal places; the weights are the
literal constants `0.5`, `2` and `0.05` for every input. -/
theorem investment_score_formula (sentiment : String → ℚ)
    (fields : List (String × Json)) (rs : List Json)
    (hrev : Json.lookup fields "reviews" = some (.arr rs)) (hne : rs ≠ [])
    (hok : ∀ r ∈ rs, reviewNumOk r = true) :
    compute_investment_score sentiment (.obj fields) =
      .ok (round2 ((ratingSum rs / (rs.length : ℚ)) * 0.5 +
        (sentimentSum sentiment rs / (rs.length : ℚ)) * 2 +
        (rs.length : ℚ) * 0.05)) := by
  have htr : Json.truthy (.arr rs) = true := by
    cases rs with
    | nil => exact absurd rfl hne
    | cons _ _ => simp [Json.truthy]
  simp [compute_investment_score, Json.getD, hrev, exceptBind_ok, htr,
    Json.asList, scoreLoop_spec sentiment rs hok, exceptPure_ok, zero_add]

/-- Witness for C2 at a one-review place record. -/
theorem investment_score_formula_witness :
    compute_investment_score (fun _ => 0)
      (.obj [("reviews",
        .arr [.obj [("rating", .num 4), ("text", .str "good")]])]) =
      .ok (round2 ((ratingSum [.obj [("rating", .num 4), ("text", .str "good")]] /
          (([.obj [("rating", .num 4), ("text", .str "good")]] : List Json).length : ℚ)) * 0.5 +
        (sentimentSum (fun _ => 0) [.obj [("rating", .num 4), ("text", .str "good")]] /
          (([.obj [("rating", .num 4), ("text", .str "good")]] : List Json).length : ℚ)) * 2 +
        (([.obj [("rating", .num 4), ("text", .str "good")]] : List Json).length : ℚ) * 0.05)) :=
  investment_score_formula (fun _ => 0) _ _ rfl (List.cons_ne_nil _ _)
    (by intro r hr; rw [List.mem_singleton] at hr; subst hr; rfl)

/-- Claim C10: in `compute_investment_score` a review with no `rating` key
contributes `0` to the rating total while still counting in the divisor
(the review count), so it lowers a positive average rather than being
skipped; a review with no `text` key contributes the sentiment of the empty
string. -/
theorem missing_fields_still_counted (sentiment : String → ℚ)
    (fields fs0 : List (String × Json)) (rs : List Json)
    (hrat : Json.lookup fs0 "rating" = none)
    (htxt : Json.lookup fs0 "text" = none)
    (hrev : Json.lookup fields "reviews" = some (.arr (.obj fs0 :: rs)))
    (hok : ∀ r ∈ rs, reviewNumOk r = true) :
    compute_investment_score sentiment (.obj fields) =
      .ok (round2 (((0 + ratingSum rs) / ((rs.length : ℚ) + 1)) * 0.5 +
        ((sentiment "" + sentimentSum sentiment rs) / ((rs.length : ℚ) + 1)) * 2 +
        ((rs.length : ℚ) + 1) * 0.05)) ∧
    (0 < ratingSum rs → rs ≠ [] →
      (0 + ratingSum rs) / ((rs.length : ℚ) + 1) <
        ratingSum rs / (rs.length : ℚ)) := by
  have h0 : reviewNumOk (.obj fs0) = true := by
    simp [reviewNumOk, ratingFieldOk, textFieldOk, hrat, htxt]
  have hall : ∀ r ∈ (Json.obj fs0 :: rs), reviewNumOk r = true := by
    intro r hr
    rcases List.mem_cons.mp hr with rfl | hr
    · exact h0
    · exact hok r hr
  constructor
  · have hrv : ratingValue (.obj fs0) = 0 := by simp [ratingValue, hrat]
    have htv : textValue (.obj fs0) = "" := by simp [textValue, htxt]
    have hsum : ratingSum (Json.obj fs0 :: rs) = 0 + ratingSum rs := by
      simp [ratingSum, hrv]
    have hsent : sentimentSum sentiment (Json.obj fs0 :: rs) =
        sentiment "" + sentimentSum sentiment rs := by
      simp [sentimentSum, htv]
    have hlen : (((Json.obj fs0 :: rs).length : ℕ) : ℚ) = (rs.length : ℚ) + 1 := by
      push_cast [List.length_cons]
      ring
    simp [compute_investment_score, Json.getD, hrev, exceptBind_ok,
      Json.truthy, Json.asList,
      scoreLoop_spec sentiment _ hall, exceptPure_ok, zero_add,
      hsum, hsent, hlen]
  · intro hpos hne
    rw [zero_add]
    have hlenpos : (0 : ℚ) < (rs.length : ℚ) := by
      cases rs with
      | nil => exact absurd rfl hne
      | cons y ys => exact_mod_cast Nat.succ_pos ys.length
    exact div_lt_div_of_pos_left hpos hlenpos (lt_add_one _)

/-- Witness for C10: a ratingless, textless review next to one rated-4
review; the formula counts both in the divisor and the average drops. -/
theorem missing_fields_still_counted_witness :
    compute_investment_score (fun _ => 0)
      (.obj [("reviews", .arr [.obj [("author_name", .str "A")],
        .obj [("rating", .num 4), ("text", .str "nice")]])]) =
      .ok (round2 (((0 + ratingSum [.obj [("rating", .num 4), ("text", .str "nice")]]) /
          ((([.obj [("rating", .num 4), ("text", .str "nice")]] : List Json).length : ℚ) + 1)) * 0.5 +
        (((fun (_ : String) => (0:ℚ)) "" +
            sentimentSum (fun _ => 0) [.obj [("rating", .num 4), ("text", .str "nice")]]) /
          ((([.obj [("rating", .num 4), ("text", .str "nice")]] : List Json).length : ℚ) + 1)) * 2 +
        ((([.obj [("rating", .num 4), ("text", .str "nice")]] : List Json).length : ℚ) + 1) * 0.05)) ∧
    (0 + ratingSum [.obj [("rating", .num 4), ("text", .str "nice")]]) /
        ((([.obj [("rating", .num 4), ("text", .str "nice")]] : List Json).length : ℚ) + 1) <
      ratingSum [.obj [("rating", .num 4), ("text", .str "nice")]] /
        (([.obj [("rating", .num 4), ("text", .str "nice")]] : List Json).length : ℚ) :=
  ⟨(missing_fields_still_counted (fun _ => 0)
      [("reviews", .arr [.obj [("author_name", .str "A")],
        .obj [("rating", .num 4), ("text", .str "nice")]])]
      [("author_name", .str "A")]
      [.obj [("rating", .num 4), ("text", .str "nice")]] rfl rfl rfl
      (by intro r hr; rw [List.mem_singleton] at hr; subst hr; rfl)).1,
   (missing_fields_still_counted (fun _ => 0)
      [("reviews", .arr [.obj [("author_name", .str "A")],
        .obj [("rating", .num 4), ("text", .str "nice")]])]
      [("author_name", .str "A")]
      [.obj [("rating", .num 4), ("text", .str "nice")]] rfl rfl rfl
      (by intro r hr; rw [List.mem_singleton] at hr; subst hr; rfl)).2
     (by simp [ratingSum, ratingValue, Json.lookup])
     (List.cons_ne_nil _ _)⟩

theorem extractReview_not_kept (fs : List (String × Json)) (t : Json)
    (htxt : (Json.lookup fs "text").getD .null = t)
    (hfalse : t.truthy = false) :
    extractReview (.obj fs) = .ok none := by
  simp [extractReview, Json.get, htxt, hfalse, exceptBind_ok, exceptPure_ok]

theorem keepReview_not_kept (fs : List (String × Json)) (t : Json)
    (htxt : (Json.lookup fs "text").getD .null = t)
    (hfalse : t.truthy = false) :
    keepReview (.obj fs) = none := by
  cases t <;> simp_all [keepReview, Json.truthy]

theorem extractReview_spec (review : Json)
    (h : wellShapedReview review = true) :
    extractReview review = .ok (keepReview review) := by
  cases review with
  | obj fs =>
    simp only [wellShapedReview] at h
    cases htxt : (Json.lookup fs "text").getD .null with
    | str s =>
      simp only [extractReview, Json.get, keepReview, htxt, exceptBind_ok]
      split <;> rename_i hcond <;>
        simp_all [Json.strip, exceptBind_ok, exceptPure_ok]
    | null =>
      rw [extractReview_not_kept fs _ htxt rfl, keepReview_not_kept fs _ htxt rfl]
    | bool b =>
      rw [htxt] at h
      simp [Json.truthy] at h
      subst h
      rw [extractReview_not_kept fs _ htxt rfl, keepReview_not_kept fs _ htxt rfl]
    | num q =>
      rw [htxt] at h
      simp [Json.truthy] at h
      subst h
      rw [extractReview_not_kept fs _ htxt (by simp [Json.truthy]),
        keepReview_not_kept fs _ htxt (by simp [Json.truthy])]
    | arr xs =>
      rw [htxt] at h
      simp [Json.truthy] at h
      subst h
      rw [extractReview_not_kept fs _ htxt rfl, keepReview_not_kept fs _ htxt rfl]
    | obj gs =>
      rw [htxt] at h
      simp [Json.truthy] at h
      subst h
      rw [extractReview_not_kept fs _ htxt rfl, keepReview_not_kept fs _ htxt rfl]
  | null => simp [wellShapedReview] at h
  | bool b => simp [wellShapedReview] at h
  | num q => simp [wellShapedReview] at h
  | str s => simp [wellShapedReview] at h
  | arr xs => simp [wellShapedReview] at h

theorem collectReviews_spec (rs : List Json)
    (h : ∀ r ∈ rs, wellShapedReview r = true) :
    collectReviews rs = .ok (rs.filterMap keepReview) := by
  induction rs with
  | nil => simp [collectReviews, exceptPure_ok]
  | cons r rest ih =>
    rw [collectReviews, extractReview_spec r (h r (by simp))]
    rw [show collectReviews rest = _ from ih (fun x hx => h x (by simp [hx]))]
    cases hk : keepReview r <;>
      simp [hk, List.filterMap_cons, exceptBind_ok, exceptPure_ok]

theorem extractPlace_spec (place : Json)
    (h : wellShapedPlace place = true) :
    extractPlace place = .ok (keepPlace place) := by
  cases place with
  | obj fs =>
    simp only [wellShapedPlace] at h
    cases hrev : (Json.lookup fs "reviews").getD (.arr []) with
    | arr rs =>
      rw [hrev] at h
      have hall : ∀ r ∈ rs, wellShapedReview r = true := by
        simpa [List.all_eq_true] using h
      simp only [extractPlace, Json.get, Json.getD, keepPlace, hrev,
        exceptBind_ok, Json.asList, collectReviews_spec rs hall]
      split <;> rename_i hcond <;> simp_all [exceptPure_ok]
    | null => rw [hrev] at h; simp at h
    | bool b => rw [hrev] at h; simp at h
    | num q => rw [hrev] at h; simp at h
    | str s => rw [hrev] at h; simp at h
    | obj gs => rw [hrev] at h; simp at h
  | null => simp [wellShapedPlace] at h
  | bool b => simp [wellShapedPlace] at h
  | num q => simp [wellShapedPlace] at h
  | str s => simp [wellShapedPlace] at h
  | arr xs => simp [wellShapedPlace] at h

theorem collectPlaces_spec (ps : List Json)
    (h : ∀ p ∈ ps, wellShapedPlace p = true) :
    collectPlaces ps = .ok (ps.filterMap keepPlace) := by
  induction ps with
  | nil => simp [collectPlaces, exceptPure_ok]
  | cons p rest ih =>
    rw [collectPlaces, extractPlace_spec p (h p (by simp))]
    rw [show collectPlaces rest = _ from ih (fun x hx => h x (by simp [hx]))]
    cases hk : keepPlace p <;>
      simp [hk, List.filterMap_cons, exceptBind_ok, exceptPure_ok]

/-- Claim C9: on a well-shaped dataset the extraction cell emits exactly the
places with a truthy name and at least one surviving review (`keepPlace`);
a review survives exactly when its author is truthy, its rating is not
`None` and its text is truthy, and it is kept with whitespace-stripped text
(`keepReview`); all other reviews are silently dropped and reviewless
places are omitted entirely. -/
theorem extraction_cell_semantics (data : Json)
    (h : wellShapedData data = true) :
    extractBusinessReviews data = .ok ((placesOf data).filterMap keepPlace) := by
  cases data with
  | obj fs =>
    simp only [wellShapedData] at h
    cases hpl : (Json.lookup fs "places").getD (.arr []) with
    | arr ps =>
      rw [hpl] at h
      have hall : ∀ p ∈ ps, wellShapedPlace p = true := by
        simpa [List.all_eq_true] using h
      simp [extractBusinessReviews, Json.getD, hpl, exceptBind_ok,
        Json.asList, collectPlaces_spec ps hall, placesOf, exceptPure_ok]
    | null => rw [hpl] at h; simp at h
    | bool b => rw [hpl] at h; simp at h
    | num q => rw [hpl] at h; simp at h
    | str s => rw [hpl] at h; simp at h
    | obj gs => rw [hpl] at h; simp at h
  | null => simp [wellShapedData] at h
  | bool b => simp [wellShapedData] at h
  | num q => simp [wellShapedData] at h
  | str s => simp [wellShapedData] at h
  | arr xs => simp [wellShapedData] at h

/-- Witness for C9: a dataset with one kept place (one surviving review,
one dropped ratingless review, text stripped) and one dropped nameless
place. -/
theorem extraction_cell_semantics_witness :
    extractBusinessReviews (.obj [("places", .arr [
      .obj [("name", .str "Cafe"), ("reviews", .arr [
        .obj [("author_name", .str "Ann"), ("rating", .num 5),
          ("text", .str " great ")],
        .obj [("author_name", .str "Bo"), ("text", .str "no rating")]])],
      .obj [("reviews", .arr [
        .obj [("author_name", .str "Ann"), ("rating", .num 5),
          ("text", .str "fine")]])]])]) =
      .ok ((placesOf (.obj [("places", .arr [
        .obj [("name", .str "Cafe"), ("reviews", .arr [
          .obj [("author_name", .str "Ann"), ("rating", .num 5),
            ("text", .str " great ")],
          .obj [("author_name", .str "Bo"), ("text", .str "no rating")]])],
        .obj [("reviews", .arr [
          .obj [("author_name", .str "Ann"), ("rating", .num 5),
            ("text", .str "fine")]])]])])).filterMap keepPlace) :=
  extraction_cell_semantics _ (by rfl)
